import Mathlib

/-!
Verification of the placeholder-image PNG encoder.

The development shallowly embeds the encoder found in the source
(`generatePNG`, `deflateData`, `crc32`, `adler32`, and the numeric part of
`isValidGenerateImageArgs`).  Byte buffers are `List Nat` whose elements are
byte values; JavaScript 32-bit bitwise results are modelled on `Nat`
(the unsigned bit pattern) together with an explicit signed reinterpretation
`toInt32` where JavaScript produces a signed 32-bit integer.  Operations that
can throw in the source (`Buffer.writeUInt32BE` on an out-of-range value)
are modelled with `Except`.
-/

namespace ImageGen

/-- Big-endian 4-byte encoding, as `Buffer.writeUInt32BE` lays out a value. -/
def be32 (n : Nat) : List Nat :=
  [n / 2 ^ 24 % 256, n / 2 ^ 16 % 256, n / 2 ^ 8 % 256, n % 256]

/-- Little-endian 2-byte encoding, as `Buffer.writeUInt16LE` lays out a value. -/
def le16 (n : Nat) : List Nat :=
  [n % 256, n / 256 % 256]

/-- Big-endian 4-byte decoding, used to read a declared dimension back. -/
def readBE32 (l : List Nat) : Nat :=
  l.foldl (fun acc x => acc * 256 + x) 0

/-- Reinterpret the low 32 bits of a natural number as a signed 32-bit
integer, as JavaScript ToInt32 does for the results of `<<`, `|` and `^`. -/
def toInt32 (n : Nat) : Int :=
  if n % 2 ^ 32 < 2 ^ 31 then (n % 2 ^ 32 : Int) else (n % 2 ^ 32 : Int) - 2 ^ 32

/-- One round of the CRC table loop from the source:
`c = (c & 1) ? (0xEDB88320 ^ (c >>> 1)) : (c >>> 1)`. -/
def crcStep (c : Nat) : Nat :=
  if c &&& 1 = 1 then 0xEDB88320 ^^^ (c >>> 1) else c >>> 1

/-- Entry `i` of the CRC table built by the source (8 rounds of `crcStep`
starting from the index). -/
def crcTableEntry (i : Nat) : Nat :=
  crcStep^[8] i

/-- The source `crc32`: table-driven update
`crc = crcTable[(crc ^ data[i]) & 0xFF] ^ (crc >>> 8)` from `0xFFFFFFFF`,
inverted at the end (the final `>>> 0` only reinterprets the bits as
unsigned, which is the identity in this unsigned model). -/
def crc32 (data : List Nat) : Nat :=
  (data.foldl
    (fun crc byte => crcTableEntry ((crc ^^^ byte) &&& 0xFF) ^^^ (crc >>> 8))
    0xFFFFFFFF) ^^^ 0xFFFFFFFF

/-- Modelled from the spec: one bit-round of the standard reflected CRC-32
with polynomial 0xEDB88320. -/
def crcSpecStep (c : Nat) : Nat :=
  if c % 2 = 1 then (c >>> 1) ^^^ 0xEDB88320 else c >>> 1

/-- Modelled from the spec: standard bitwise reflected CRC-32, accumulator
initialized to all-ones, xor the byte in, run 8 bit-rounds per byte, invert
at the end. -/
def crc32Spec (data : List Nat) : Nat :=
  (data.foldl (fun crc byte => crcSpecStep^[8] (crc ^^^ byte)) 0xFFFFFFFF) ^^^
    0xFFFFFFFF

/-- The running Adler sums of the source `adler32`: `a` starts at 1, `b` at 0,
and per byte `a = (a + byte) % 65521` then `b = (b + a) % 65521`. -/
def adlerSums (data : List Nat) : Nat × Nat :=
  data.foldl
    (fun p byte => ((p.1 + byte) % 65521, (p.2 + (p.1 + byte) % 65521) % 65521))
    (1, 0)

/-- The source `adler32`: `return (b << 16) | a`.  In JavaScript `<<` and `|`
produce a SIGNED 32-bit integer, so the result is negative whenever
`b >= 0x8000`; `toInt32` models that reinterpretation. -/
def adler32 (data : List Nat) : Int :=
  toInt32 (((adlerSums data).2 <<< 16) ||| (adlerSums data).1)

/-- Modelled from the spec: the same running sums packed as the unsigned
32-bit value `(b <<< 16) ||| a`. -/
def adler32Spec (data : List Nat) : Nat :=
  ((adlerSums data).2 <<< 16) ||| (adlerSums data).1

/-- The block-building loop of the source `deflateData`:
`for (i = 0; i < data.length; i += 65535)` pushes the block header byte
(1 when `i + 65535 >= data.length`, else 0), the 2-byte little-endian length,
the 2-byte little-endian ones-complement of the length, then the block bytes
`data.subarray(i, min(i + 65535, data.length))` verbatim. -/
def deflateBlocksLoopF (data : List Nat) : Nat → Nat → List Nat
  | _, 0 => []
  | i, fuel + 1 =>
    if i < data.length then
      (if data.length ≤ i + 65535 then [1] else [0])
        ++ le16 ((data.drop i).take 65535).length
        ++ le16 (0xFFFF - ((data.drop i).take 65535).length)
        ++ (data.drop i).take 65535
        ++ deflateBlocksLoopF data (i + 65535) fuel
    else []

/-- The loop entered at index `i`.  The fuel argument is an embedding
artifact only: the loop advances `i` by 65535 each pass, so it runs at most
`data.length` times and fuel `data.length + 1` is never exhausted. -/
def deflateBlocksLoop (data : List Nat) (i : Nat) : List Nat :=
  deflateBlocksLoopF data i (data.length + 1)

/-- The source `deflateData`: 2-byte stream header `[0x78, 0x01]`, the stored
blocks, then the big-endian Adler-32 trailer.  `writeUInt32BE` throws a
range error when handed a negative value, which happens exactly when the
source `adler32` result is negative; that failure is modelled as
`Except.error`. -/
def deflateData (data : List Nat) : Except String (List Nat) :=
  if adler32 data < 0 then
    Except.error "RangeError: adler value out of range for writeUInt32BE"
  else
    Except.ok ([0x78, 0x01] ++ deflateBlocksLoop data 0 ++
      be32 (adler32 data).toNat)

/-- Modelled from the spec: partition the input in order into chunks of at
most 65535 bytes; per chunk emit the header byte (1 only for the last chunk),
the little-endian length, the little-endian ones-complement of the length,
then the chunk bytes verbatim. -/
def storedBlocks (data : List Nat) : List Nat :=
  if h : data = [] then []
  else
    (if data.drop 65535 = [] then [1] else [0])
      ++ le16 (data.take 65535).length
      ++ le16 (0xFFFF - (data.take 65535).length)
      ++ data.take 65535
      ++ storedBlocks (data.drop 65535)
termination_by data.length
decreasing_by
  simp only [List.length_drop]
  cases data with
  | nil => exact absurd rfl h
  | cons x xs => simp; omega

/-- Modelled from the spec: the number of stored blocks the partition of the
input produces. -/
def numStoredBlocks (data : List Nat) : Nat :=
  if h : data = [] then 0 else numStoredBlocks (data.drop 65535) + 1
termination_by data.length
decreasing_by
  simp only [List.length_drop]
  cases data with
  | nil => exact absurd rfl h
  | cons x xs => simp; omega

/-- The source pixel buffer fill: `for (i = 0; i < w*h*3; i += 3)` writes the
three color bytes, i.e. `n` consecutive `r, g, b` triplets. -/
def pixelFill (r g b : Nat) : Nat → List Nat
  | 0 => []
  | n + 1 => r :: g :: b :: pixelFill r g b n

/-- The source `pixelData` buffer: `width * height` triplets of the color. -/
def pixelData (w h r g b : Nat) : List Nat :=
  pixelFill r g b (w * h)

/-- The source `imageData` buffer: for each row `y`, the framing byte 0
followed by the copy of `pixelData[y*w*3 + x]` for `x < w*3`, i.e. the slice
of `pixelData` starting at `y*w*3` of length `w*3`. -/
def imageData (w h r g b : Nat) : List Nat :=
  ((List.range h).map
    (fun y => 0 :: ((pixelData w h r g b).drop (y * w * 3)).take (w * 3))).flatten

/-- The 8-byte PNG signature from the source. -/
def pngSignature : List Nat :=
  [0x89, 0x50, 0x4E, 0x47, 0x0D, 0x0A, 0x1A, 0x0A]

/-- ASCII bytes of the IHDR tag. -/
def tagIHDR : List Nat := [0x49, 0x48, 0x44, 0x52]

/-- ASCII bytes of the IDAT tag. -/
def tagIDAT : List Nat := [0x49, 0x44, 0x41, 0x54]

/-- ASCII bytes of the IEND tag. -/
def tagIEND : List Nat := [0x49, 0x45, 0x4E, 0x44]

/-- The source IHDR payload: width BE, height BE, bit depth 8, color type 2,
compression 0, filter 0, interlace 0. -/
def ihdrData (w h : Nat) : List Nat :=
  be32 w ++ be32 h ++ [8, 2, 0, 0, 0]

/-- The source IHDR chunk: hardcoded length bytes, tag, payload, CRC. -/
def ihdrChunk (w h : Nat) : List Nat :=
  [0x00, 0x00, 0x00, 0x0D] ++ tagIHDR ++ ihdrData w h ++
    be32 (crc32 (tagIHDR ++ ihdrData w h))

/-- The source IDAT chunk: length of the compressed payload BE, tag,
compressed payload, CRC. -/
def idatChunk (comp : List Nat) : List Nat :=
  be32 comp.length ++ tagIDAT ++ comp ++ be32 (crc32 (tagIDAT ++ comp))

/-- The source IEND chunk: hardcoded zero length, tag, CRC of the tag. -/
def iendChunk : List Nat :=
  [0x00, 0x00, 0x00, 0x00] ++ tagIEND ++ be32 (crc32 tagIEND)

/-- The source `generatePNG`: signature, IHDR, IDAT (over the deflated
scanline buffer), IEND.  The only failure point is the Adler trailer write
inside `deflateData`. -/
def generatePNG (w h r g b : Nat) : Except String (List Nat) :=
  (deflateData (imageData w h r g b)).map
    (fun comp => pngSignature ++ ihdrChunk w h ++ idatChunk comp ++ iendChunk)

/-- Modelled from the spec: `make_chunk(tag, payload)` is
`length(payload) as 4-byte BE ++ tag ++ payload ++ crc32(tag ++ payload) as
4-byte BE`. -/
def mkChunk (tag payload : List Nat) : List Nat :=
  be32 payload.length ++ tag ++ payload ++ be32 (crc32 (tag ++ payload))

/-- The numeric clauses of the source `isValidGenerateImageArgs`:
`width > 0 && height > 0 && width <= 4096 && height <= 4096` over JavaScript
numbers, modelled with rationals (every value involved is exactly
representable and comparisons are exact). -/
def isValidGenerateImageArgs (w h : ℚ) : Bool :=
  decide (0 < w) && decide (0 < h) && decide (w ≤ 4096) && decide (h ≤ 4096)

/-- Equality of modelled encoder results is decidable, so concrete runs can
be checked by evaluation. -/
instance {ε α : Type} [DecidableEq ε] [DecidableEq α] : DecidableEq (Except ε α) :=
  fun x y =>
    match x, y with
    | Except.error a, Except.error b =>
      if h : a = b then isTrue (h ▸ rfl)
      else isFalse fun hc => h (Except.noConfusion hc id)
    | Except.error _, Except.ok _ => isFalse fun hc => Except.noConfusion hc
    | Except.ok _, Except.error _ => isFalse fun hc => Except.noConfusion hc
    | Except.ok a, Except.ok b =>
      if h : a = b then isTrue (h ▸ rfl)
      else isFalse fun hc => h (Except.noConfusion hc id)

end ImageGen

namespace ImageGen

/-- Shifting right distributes over xor, bitwise. -/
theorem xor_shiftRight (a b k : Nat) : (a ^^^ b) >>> k = (a >>> k) ^^^ (b >>> k) :=
  Nat.eq_of_testBit_eq fun i => by
    simp [Nat.testBit_shiftRight, Nat.testBit_xor]

/-- A 32-bit style value is the xor of its low byte and its shifted high part. -/
theorem and255_xor_shift (c : Nat) : (c &&& 255) ^^^ ((c >>> 8) <<< 8) = c :=
  Nat.eq_of_testBit_eq fun i => by
    have h255 : (255 : Nat) = 2 ^ 8 - 1 := by norm_num
    rw [h255]
    simp only [Nat.testBit_xor, Nat.testBit_and, Nat.testBit_two_pow_sub_one,
      Nat.testBit_shiftLeft, Nat.testBit_shiftRight]
    by_cases hi : i < 8
    · have h8 : ¬ (i ≥ 8) := by omega
      simp [hi, h8]
    · have h8 : i ≥ 8 := by omega
      have heq : 8 + (i - 8) = i := by omega
      simp [hi, h8, heq]

/-- Rearranging a xor of four values into swapped pairs. -/
theorem xor_swap_pairs (sa sb ma mb : Nat) :
    (sa ^^^ sb) ^^^ (ma ^^^ mb) = (sa ^^^ ma) ^^^ (sb ^^^ mb) :=
  Nat.eq_of_testBit_eq fun i => by
    simp only [Nat.testBit_xor]
    cases sa.testBit i <;> cases sb.testBit i <;> cases ma.testBit i <;>
      cases mb.testBit i <;> rfl

/-- The CRC bit round written as a shift xored with a parity mask. -/
theorem crcStep_eq (c : Nat) :
    crcStep c = (c >>> 1) ^^^ (if c % 2 = 1 then 0xEDB88320 else 0) := by
  by_cases hc : c % 2 = 1 <;> simp [crcStep, Nat.and_one_is_mod, hc, Nat.xor_comm]

/-- The CRC bit round is linear over xor. -/
theorem crcStep_xor (a b : Nat) : crcStep (a ^^^ b) = crcStep a ^^^ crcStep b := by
  have hab : (a ^^^ b) % 2 = (a % 2) ^^^ (b % 2) := by
    rw [← Nat.and_one_is_mod, ← Nat.and_one_is_mod, ← Nat.and_one_is_mod]
    exact Nat.and_xor_distrib_right
  have hM : (if (a ^^^ b) % 2 = 1 then (0xEDB88320 : Nat) else 0) =
      (if a % 2 = 1 then (0xEDB88320 : Nat) else 0) ^^^
        (if b % 2 = 1 then (0xEDB88320 : Nat) else 0) := by
    rw [hab]
    rcases Nat.mod_two_eq_zero_or_one a with ha | ha <;>
      rcases Nat.mod_two_eq_zero_or_one b with hb | hb <;>
      simp [ha, hb, Nat.xor_self]
  rw [crcStep_eq, crcStep_eq, crcStep_eq, xor_shiftRight, hM, xor_swap_pairs]

/-- Iterating the CRC bit round is linear over xor. -/
theorem crcIter_xor (n a b : Nat) :
    crcStep^[n] (a ^^^ b) = crcStep^[n] a ^^^ crcStep^[n] b := by
  induction n generalizing a b with
  | zero => simp
  | succ n ih =>
    simp only [Function.iterate_succ_apply]
    rw [crcStep_xor]
    exact ih _ _

/-- One CRC bit round on a left-shifted value just lowers the shift. -/
theorem crcStep_shiftLeft (x k : Nat) : crcStep (x <<< (k + 1)) = x <<< k := by
  have h1 : (x <<< (k + 1)) % 2 = 0 := by
    rw [Nat.shiftLeft_eq, pow_succ, ← Nat.mul_assoc]
    exact Nat.mul_mod_left _ 2
  have h2 : (x <<< (k + 1)) >>> 1 = x <<< k := by
    rw [Nat.shiftLeft_eq, Nat.shiftLeft_eq, Nat.shiftRight_eq_div_pow, pow_succ,
      ← Nat.mul_assoc, pow_one]
    exact Nat.mul_div_cancel _ (by norm_num)
  simp [crcStep, Nat.and_one_is_mod, h1, h2]

/-- After n CRC bit rounds a value shifted left by n comes back unchanged. -/
theorem crcIter_shiftLeft (n : Nat) : ∀ x : Nat, crcStep^[n] (x <<< n) = x := by
  induction n with
  | zero => intro x; simp
  | succ n ih =>
    intro x
    rw [Function.iterate_succ_apply, crcStep_shiftLeft]
    exact ih x

/-- Eight CRC bit rounds factor through the table entry of the low byte. -/
theorem crcIter8_eq_table (c : Nat) :
    crcStep^[8] c = crcTableEntry (c &&& 255) ^^^ (c >>> 8) := by
  conv_lhs => rw [← and255_xor_shift c]
  rw [crcIter_xor, crcIter_shiftLeft]
  rfl

/-- The spec bit round and the source table-loop round agree. -/
theorem crcSpecStep_eq_crcStep : crcSpecStep = crcStep := by
  funext c
  by_cases hc : c % 2 = 1 <;>
    simp [crcSpecStep, crcStep, Nat.and_one_is_mod, hc, Nat.xor_comm]

/-- The table-driven per-byte update equals eight bit rounds of the spec CRC. -/
theorem crcUpdate_eq (crc byte : Nat) (hb : byte < 256) :
    crcTableEntry ((crc ^^^ byte) &&& 255) ^^^ (crc >>> 8) =
      crcSpecStep^[8] (crc ^^^ byte) := by
  rw [crcSpecStep_eq_crcStep, crcIter8_eq_table (crc ^^^ byte)]
  congr 1
  rw [xor_shiftRight]
  have h0 : byte >>> 8 = 0 := by
    rw [Nat.shiftRight_eq_div_pow]
    exact Nat.div_eq_of_lt (by omega)
  rw [h0, Nat.xor_zero]

/-- Folding the table-driven update and the spec update agree on byte inputs. -/
theorem crc32_fold_eq (data : List Nat) (hb : ∀ x ∈ data, x < 256) : ∀ crc : Nat,
    data.foldl (fun crc byte => crcTableEntry ((crc ^^^ byte) &&& 0xFF) ^^^ (crc >>> 8)) crc =
      data.foldl (fun crc byte => crcSpecStep^[8] (crc ^^^ byte)) crc := by
  induction data with
  | nil => intro crc; rfl
  | cons x xs ih =>
    intro crc
    simp only [List.foldl_cons]
    rw [crcUpdate_eq crc x (hb x (List.mem_cons_self _ _))]
    exact ih (fun y hy => hb y (List.mem_cons_of_mem _ hy)) _

/-- Claim C5: for every byte sequence, the source crc32 equals the standard
reflected CRC-32 with polynomial 0xEDB88320, accumulator initialized to
all-ones and inverted at the end, and crc32 of the empty sequence is 0. -/
theorem claim_C5_crc32_matches_reference :
    (∀ data : List Nat, (∀ x ∈ data, x < 256) → crc32 data = crc32Spec data) ∧
      crc32 [] = 0 := by
  constructor
  · intro data hb
    unfold crc32 crc32Spec
    rw [crc32_fold_eq data hb]
  · simp [crc32, Nat.xor_self]

/-- Witness for C5 at the concrete byte sequence [0, 255, 171]. -/
theorem claim_C5_witness :
    (∀ x ∈ [0, 255, 171], x < 256) ∧ crc32 [0, 255, 171] = crc32Spec [0, 255, 171] :=
  ⟨by decide, claim_C5_crc32_matches_reference.1 [0, 255, 171] (by decide)⟩

end ImageGen

namespace ImageGen

/-- With enough fuel, the index loop of the source deflate agrees, from
index i on, with the spec partition of the remaining suffix. -/
theorem deflateBlocksLoopF_eq (data : List Nat) : ∀ (fuel i : Nat),
    data.length - i < fuel →
      deflateBlocksLoopF data i fuel = storedBlocks (data.drop i) := by
  intro fuel
  induction fuel with
  | zero => intro i h; omega
  | succ fuel ih =>
    intro i h
    by_cases hi : i < data.length
    · have hne : data.drop i ≠ [] := by
        intro hc
        rw [List.drop_eq_nil_iff] at hc
        omega
      have hdd : (data.drop i).drop 65535 = data.drop (i + 65535) := by
        rw [List.drop_drop]
      rw [deflateBlocksLoopF, if_pos hi, storedBlocks, dif_neg hne]
      by_cases hl : data.length ≤ i + 65535
      · have hl2 : (data.drop i).drop 65535 = [] := by
          rw [hdd]
          exact List.drop_eq_nil_iff.mpr (by omega)
        rw [if_pos hl, if_pos hl2, ih (i + 65535) (by omega), hdd]
      · have hl2 : ¬ (data.drop i).drop 65535 = [] := by
          rw [hdd]
          intro hc
          rw [List.drop_eq_nil_iff] at hc
          omega
        rw [if_neg hl, if_neg hl2, ih (i + 65535) (by omega), hdd]
    · have hnil : data.drop i = [] := List.drop_eq_nil_iff.mpr (by omega)
      rw [deflateBlocksLoopF, if_neg hi, hnil, storedBlocks, dif_pos rfl]

/-- The deflate loop started at 0 produces exactly the spec partition. -/
theorem deflateBlocksLoop_eq_storedBlocks (data : List Nat) :
    deflateBlocksLoop data 0 = storedBlocks data := by
  have h := deflateBlocksLoopF_eq data (data.length + 1) 0 (by omega)
  simpa [deflateBlocksLoop] using h

/-- An input longer than one block bound is split into at least two blocks. -/
theorem two_le_numStoredBlocks (data : List Nat) (h : 65535 < data.length) :
    2 ≤ numStoredBlocks data := by
  have hne : data ≠ [] := by
    intro hc
    subst hc
    simp at h
  have hne2 : data.drop 65535 ≠ [] := by
    intro hc
    rw [List.drop_eq_nil_iff] at hc
    omega
  rw [numStoredBlocks, dif_neg hne, numStoredBlocks, dif_neg hne2]
  omega

/-- Claim C2 (amended): whenever the packed Adler value is nonnegative, the
stream wrapper emits the 2-byte header, the ordered partition of the input
into stored blocks of at most 65535 bytes (final flag only on the last,
little-endian length and ones-complement, bytes verbatim), then the
big-endian Adler-32 of the whole input; an input of the 4096x4096 raster
size is split into at least two blocks. -/
theorem claim_C2_deflate_stream_layout (data : List Nat) (h : 0 ≤ adler32 data) :
    deflateData data =
      Except.ok ([0x78, 0x01] ++ storedBlocks data ++ be32 (adler32 data).toNat) ∧
    (data.length = 4096 * (1 + 4096 * 3) → 2 ≤ numStoredBlocks data) := by
  constructor
  · unfold deflateData
    rw [if_neg (not_lt.mpr h), deflateBlocksLoop_eq_storedBlocks]
  · intro hlen
    exact two_le_numStoredBlocks data (by omega)

/-- Counterexample to C2 as stated: on the 16-byte all-0xFF input the source
wrapper does not emit any stream at all, because the packed Adler value is a
negative signed 32-bit integer and the trailer write throws. -/
theorem claim_C2_counterexample :
    deflateData (List.replicate 16 255) =
      Except.error "RangeError: adler value out of range for writeUInt32BE" := by
  decide

/-- Witness for C2 at the concrete byte sequence [0, 255, 0]. -/
theorem claim_C2_witness :
    0 ≤ adler32 [0, 255, 0] ∧
      (deflateData [0, 255, 0] =
        Except.ok ([0x78, 0x01] ++ storedBlocks [0, 255, 0] ++
          be32 (adler32 [0, 255, 0]).toNat) ∧
      (([0, 255, 0] : List Nat).length = 4096 * (1 + 4096 * 3) →
        2 ≤ numStoredBlocks [0, 255, 0])) :=
  ⟨by decide, claim_C2_deflate_stream_layout [0, 255, 0] (by decide)⟩

/-- Counterexample to C3 as stated: for empty input the source wrapper does
NOT emit the 11-byte stream with one empty final stored block. -/
theorem claim_C3_counterexample :
    deflateData [] ≠
      Except.ok [0x78, 0x01, 0x01, 0x00, 0x00, 0xFF, 0xFF, 0x00, 0x00, 0x00, 0x01] := by
  decide

/-- Claim C3 (amended): for the empty input the block loop never runs, so the
wrapper emits no stored block at all: just the 2-byte stream header followed
immediately by the 4-byte Adler-32 trailer 0x00000001. -/
theorem claim_C3_empty_input_stream :
    deflateData [] = Except.ok [0x78, 0x01, 0x00, 0x00, 0x00, 0x01] := by
  decide

/-- Claim C1: encode(2,2,red) builds the 14-byte scanline buffer
[0,255,0,0,255,0,0,0,255,0,0,255,0,0], and deflating it yields the stream
header 0x78 0x01, one final stored block (header byte 0x01, length 0x000E
little-endian, complement 0xFFF1 little-endian), the 14 bytes verbatim, and
the big-endian Adler-32 of those 14 bytes. -/
theorem claim_C1_concrete_scenario :
    imageData 2 2 255 0 0 = [0, 255, 0, 0, 255, 0, 0, 0, 255, 0, 0, 255, 0, 0] ∧
    deflateData [0, 255, 0, 0, 255, 0, 0, 0, 255, 0, 0, 255, 0, 0] =
      Except.ok ([0x78, 0x01] ++ [0x01] ++ [0x0E, 0x00] ++ [0xF1, 0xFF] ++
        [0, 255, 0, 0, 255, 0, 0, 0, 255, 0, 0, 255, 0, 0] ++
        be32 (adler32Spec [0, 255, 0, 0, 255, 0, 0, 0, 255, 0, 0, 255, 0, 0])) := by
  decide

/-- Claim C4 (code bug): on 16 bytes of 0xFF the source adler32 returns the
negative signed value -2021126159 instead of the unsigned packed value
2273841137, because the JavaScript expression (b shl 16) or a is evaluated in
signed 32-bit arithmetic; on empty input it returns 1 as the claim states. -/
theorem claim_C4_adler_sign_bug :
    adler32 (List.replicate 16 255) = -2021126159 ∧
    adler32Spec (List.replicate 16 255) = 2273841137 ∧
    adler32 [] = 1 := by
  decide

end ImageGen

namespace ImageGen

/-- Filling a sum of triplet counts splits into an append. -/
theorem pixelFill_add (r g b m n : Nat) :
    pixelFill r g b (m + n) = pixelFill r g b m ++ pixelFill r g b n := by
  induction m with
  | zero => simp [pixelFill]
  | succ m ih =>
    have hmn : m + 1 + n = (m + n) + 1 := by omega
    rw [hmn]
    simp [pixelFill, ih]

/-- Length of the pixel fill. -/
theorem length_pixelFill (r g b n : Nat) : (pixelFill r g b n).length = 3 * n := by
  induction n with
  | zero => rfl
  | succ n ih => simp [pixelFill, ih]; omega

/-- The pixel fill is the flattening of replicated color triplets. -/
theorem pixelFill_eq_flatten (r g b n : Nat) :
    pixelFill r g b n = (List.replicate n [r, g, b]).flatten := by
  induction n with
  | zero => rfl
  | succ n ih => simp [pixelFill, List.replicate_succ, List.flatten_cons, ih]

/-- Each row slice the source copies out of pixelData is one full row of
color triplets. -/
theorem pixelData_slice (w h r g b y : Nat) (hy : y < h) :
    ((pixelData w h r g b).drop (y * w * 3)).take (w * 3) = pixelFill r g b w := by
  unfold pixelData
  have hsplit : w * h = w * y + (w + (w * h - w * y - w)) := by
    have hle : w * y + w ≤ w * h := by
      have h1 : w * (y + 1) ≤ w * h := Nat.mul_le_mul_left w (by omega)
      calc w * y + w = w * (y + 1) := by ring
        _ ≤ w * h := h1
    omega
  rw [hsplit, pixelFill_add]
  have h2 : y * w * 3 = (pixelFill r g b (w * y)).length := by
    rw [length_pixelFill]; ring
  rw [h2, List.drop_left, pixelFill_add]
  have h3 : w * 3 = (pixelFill r g b w).length := by
    rw [length_pixelFill]; ring
  rw [h3, List.take_left]

/-- Flattening n copies of a list multiplies the length. -/
theorem length_flatten_replicate (n : Nat) (l : List Nat) :
    (List.replicate n l).flatten.length = n * l.length := by
  induction n with
  | zero => simp
  | succ n ih =>
    rw [List.replicate_succ, List.flatten_cons, List.length_append, ih]
    ring

/-- Claim C8: for every width, height and RGB triplet, the scanline buffer is
the concatenation of height rows, each a framing byte 0 followed by width
repetitions of the three color bytes, and its total length is
height * (1 + width * 3). -/
theorem claim_C8_scanline_buffer (w h r g b : Nat) :
    imageData w h r g b =
      (List.replicate h (0 :: (List.replicate w [r, g, b]).flatten)).flatten ∧
    (imageData w h r g b).length = h * (1 + w * 3) := by
  have hrow : imageData w h r g b =
      (List.replicate h (0 :: pixelFill r g b w)).flatten := by
    unfold imageData
    rw [List.map_congr_left
      (fun y hy => by
        rw [pixelData_slice w h r g b y (List.mem_range.mp hy)])]
    rw [List.map_const', List.length_range]
  constructor
  · rw [hrow, pixelFill_eq_flatten]
  · rw [hrow, length_flatten_replicate]
    simp only [List.length_cons, length_pixelFill]
    ring

end ImageGen

namespace ImageGen

/-- The IHDR payload is 13 bytes long. -/
theorem length_ihdrData (w h : Nat) : (ihdrData w h).length = 13 := by
  simp [ihdrData, be32]

/-- Claim C6: every chunk the encoder emits (IHDR, IDAT over the compressed
payload, IEND with empty payload) has the layout payload length BE, 4-byte
tag, payload, then crc32 over tag and payload BE, matching the spec chunk
assembler make_chunk; the checksum never covers the length field and the
empty payload is valid. -/
theorem claim_C6_chunks_follow_layout (w h r g b : Nat) (comp : List Nat)
    (hc : deflateData (imageData w h r g b) = Except.ok comp) :
    generatePNG w h r g b =
      Except.ok (pngSignature ++ mkChunk tagIHDR (ihdrData w h) ++
        mkChunk tagIDAT comp ++ mkChunk tagIEND []) := by
  unfold generatePNG
  rw [hc]
  have h13 : be32 (ihdrData w h).length = [0x00, 0x00, 0x00, 0x0D] := by
    rw [length_ihdrData]
    decide
  have h0 : be32 0 = [0x00, 0x00, 0x00, 0x00] := by decide
  simp [Except.map, ihdrChunk, idatChunk, iendChunk, mkChunk, h13, h0]

/-- Witness for C6 at the concrete call encode(2,2,(255,0,0)). -/
theorem claim_C6_witness :
    deflateData (imageData 2 2 255 0 0) =
      Except.ok [0x78, 0x01, 0x01, 0x0E, 0x00, 0xF1, 0xFF, 0, 255, 0, 0, 255,
        0, 0, 0, 255, 0, 0, 255, 0, 0, 0x1F, 0xEE, 0x03, 0xFD] ∧
    generatePNG 2 2 255 0 0 =
      Except.ok (pngSignature ++ mkChunk tagIHDR (ihdrData 2 2) ++
        mkChunk tagIDAT [0x78, 0x01, 0x01, 0x0E, 0x00, 0xF1, 0xFF, 0, 255, 0,
          0, 255, 0, 0, 0, 255, 0, 0, 255, 0, 0, 0x1F, 0xEE, 0x03, 0xFD] ++
        mkChunk tagIEND []) :=
  ⟨by decide,
    claim_C6_chunks_follow_layout 2 2 255 0 0
      [0x78, 0x01, 0x01, 0x0E, 0x00, 0xF1, 0xFF, 0, 255, 0, 0, 255, 0, 0, 0,
        255, 0, 0, 255, 0, 0, 0x1F, 0xEE, 0x03, 0xFD] (by decide)⟩

/-- Reading back a big-endian 4-byte field recovers a small value. -/
theorem readBE32_be32 (n : Nat) (hn : n ≤ 4096) : readBE32 (be32 n) = n := by
  simp only [readBE32, be32, List.foldl_cons, List.foldl_nil]
  norm_num
  omega

/-- Claim C7 (amended): whenever encode returns a byte sequence, it is
exactly the 8-byte magic signature followed by the IHDR, IDAT and IEND
chunks in that order, and the width and height declared big-endian in the
IHDR payload decode back to the original values. -/
theorem claim_C7_file_layout (w h r g b : Nat) (comp : List Nat)
    (hw1 : 1 ≤ w) (hw2 : w ≤ 4096) (hh1 : 1 ≤ h) (hh2 : h ≤ 4096)
    (hc : deflateData (imageData w h r g b) = Except.ok comp) :
    generatePNG w h r g b =
      Except.ok (pngSignature ++ ihdrChunk w h ++ idatChunk comp ++ iendChunk) ∧
    pngSignature = [0x89, 0x50, 0x4E, 0x47, 0x0D, 0x0A, 0x1A, 0x0A] ∧
    readBE32 ((ihdrData w h).take 4) = w ∧
    readBE32 (((ihdrData w h).drop 4).take 4) = h := by
  refine ⟨?_, rfl, ?_, ?_⟩
  · unfold generatePNG
    rw [hc]
    rfl
  · have h4 : (4 : Nat) = (be32 w).length := by simp [be32]
    rw [ihdrData, List.append_assoc, h4, List.take_left]
    exact readBE32_be32 w hw2
  · have h4w : (4 : Nat) = (be32 w).length := by simp [be32]
    have h4h : (4 : Nat) = (be32 h).length := by simp [be32]
    rw [ihdrData, List.append_assoc]
    nth_rewrite 2 [h4w]
    rw [List.drop_left, h4h, List.take_left]
    exact readBE32_be32 h hh2

/-- Witness for C7 at the concrete call encode(2,2,(255,0,0)). -/
theorem claim_C7_witness :
    (1 ≤ 2 ∧ 2 ≤ 4096 ∧
      deflateData (imageData 2 2 255 0 0) =
        Except.ok [0x78, 0x01, 0x01, 0x0E, 0x00, 0xF1, 0xFF, 0, 255, 0, 0,
          255, 0, 0, 0, 255, 0, 0, 255, 0, 0, 0x1F, 0xEE, 0x03, 0xFD]) ∧
    (generatePNG 2 2 255 0 0 =
      Except.ok (pngSignature ++ ihdrChunk 2 2 ++
        idatChunk [0x78, 0x01, 0x01, 0x0E, 0x00, 0xF1, 0xFF, 0, 255, 0, 0,
          255, 0, 0, 0, 255, 0, 0, 255, 0, 0, 0x1F, 0xEE, 0x03, 0xFD] ++
        iendChunk) ∧
    pngSignature = [0x89, 0x50, 0x4E, 0x47, 0x0D, 0x0A, 0x1A, 0x0A] ∧
    readBE32 ((ihdrData 2 2).take 4) = 2 ∧
    readBE32 (((ihdrData 2 2).drop 4).take 4) = 2) :=
  ⟨⟨by decide, by decide, by decide⟩,
    claim_C7_file_layout 2 2 255 0 0
      [0x78, 0x01, 0x01, 0x0E, 0x00, 0xF1, 0xFF, 0, 255, 0, 0, 255, 0, 0, 0,
        255, 0, 0, 255, 0, 0, 0x1F, 0xEE, 0x03, 0xFD]
      (by decide) (by decide) (by decide) (by decide) (by decide)⟩

/-- Counterexample to C7 as stated: the valid call encode(4,4,(255,255,255))
returns no byte sequence at all; the encoder throws while writing the Adler
trailer, because the packed Adler value of the 4x4 white raster is negative
in signed 32-bit arithmetic. -/
theorem claim_C7_counterexample :
    generatePNG 4 4 255 255 255 =
      Except.error "RangeError: adler value out of range for writeUInt32BE" := by
  decide

/-- Claim C9 (amended): the numeric argument validation rejects every width
or height outside the interval (0, 4096], so such requests fail with
InvalidParams before the encoder runs; the rejection happens in the caller
side validator, not inside generatePNG. -/
theorem claim_C9_validator_rejects (w h : ℚ)
    (hout : w ≤ 0 ∨ 4096 < w ∨ h ≤ 0 ∨ 4096 < h) :
    isValidGenerateImageArgs w h = false := by
  unfold isValidGenerateImageArgs
  rcases hout with hc | hc | hc | hc
  · rw [decide_eq_false (not_lt.mpr hc)]
    simp
  · rw [decide_eq_false (not_le.mpr hc)]
    simp
  · rw [decide_eq_false (not_lt.mpr hc)]
    simp
  · rw [decide_eq_false (not_le.mpr hc)]
    simp

/-- Witness for C9 at width 0, height 7. -/
theorem claim_C9_witness :
    ((0 : ℚ) ≤ 0 ∨ (4096 : ℚ) < 0 ∨ (7 : ℚ) ≤ 0 ∨ (4096 : ℚ) < 7) ∧
      isValidGenerateImageArgs 0 7 = false :=
  ⟨Or.inl le_rfl, claim_C9_validator_rejects 0 7 (Or.inl le_rfl)⟩

/-- Counterexample to C9 as stated: generatePNG itself performs no dimension
re-validation; called directly with the out-of-range width 0 it still
produces a byte sequence instead of failing. -/
theorem claim_C9_counterexample : (generatePNG 0 5 0 0 0).isOk = true := by
  decide

/-- Claim C10: the numeric argument validation accepts every number with
0 < n <= 4096 for both dimensions, integral or not; in particular width 2.5
passes, so encode is reached without an InvalidParams rejection. -/
theorem claim_C10_validator_accepts_fractional :
    (∀ w h : ℚ, 0 < w → w ≤ 4096 → 0 < h → h ≤ 4096 →
      isValidGenerateImageArgs w h = true) ∧
    isValidGenerateImageArgs (5 / 2) 2 = true := by
  constructor
  · intro w h h1 h2 h3 h4
    unfold isValidGenerateImageArgs
    rw [decide_eq_true h1, decide_eq_true h2, decide_eq_true h3,
      decide_eq_true h4]
    rfl
  · unfold isValidGenerateImageArgs
    norm_num

/-- Witness for C10 at width 5/2 and height 2. -/
theorem claim_C10_witness :
    ((0 : ℚ) < 5 / 2 ∧ (5 : ℚ) / 2 ≤ 4096 ∧ (0 : ℚ) < 2 ∧ (2 : ℚ) ≤ 4096) ∧
      isValidGenerateImageArgs (5 / 2) 2 = true :=
  ⟨⟨by norm_num, by norm_num, by norm_num, by norm_num⟩,
    claim_C10_validator_accepts_fractional.1 (5 / 2) 2 (by norm_num)
      (by norm_num) (by norm_num) (by norm_num)⟩

end ImageGen
